import Mathlib

/-!
Verification of the connection-lifecycle and liveness-supervision core of the
feng RTSP server (`src/feng-2.1.0_rc1/src/network/rtsp_client.c`).

The C file is shallowly embedded: each C function relevant to the claims
becomes a Lean function over an explicit state record, and each side effect
(stopping a watcher, closing a socket, freeing a buffer, sending an RTCP
packet) becomes an element of an emitted action trace.  Machine integers
(`time_t`, connection counters, pids) are modelled as `Int`.  The file has two
build variants selected by `#ifdef TRISOS`; the embedding carries an explicit
`trisos : Bool` parameter wherever the two variants differ.

Library calls (libev watchers, GLib queues) are embedded per their documented
semantics; feng functions that live outside `rtsp_client.c` (the RTCP sender,
the child-port list helpers) are modelled from the specification and are
marked as such in their doc comments.
-/

namespace Feng

/-- `#define LIVE_STREAM_BYE_TIMEOUT 6` (rtsp_client.c line 38). -/
def LIVE_STREAM_BYE_TIMEOUT : Int := 6

/-- `#define STREAM_TIMEOUT 12` (rtsp_client.c line 39). -/
def STREAM_TIMEOUT : Int := 12

/-! ## GLib queue model

`GQueue` is a double-ended queue; we model it as a `List`, head element
first.  `g_queue_pop_tail` removes and returns the last element.
The teardown loop `while ((outbuf = g_queue_pop_tail(rtsp->out_queue)))`
is embedded as `drainPopTail`, written with explicit fuel (the initial
queue length bounds the number of iterations) so that the recursion is
structural. -/

/-- `g_queue_pop_tail`: remove and return the tail (last) element. -/
def g_queue_pop_tail (q : List Nat) : Option Nat × List Nat :=
  match q with
  | [] => (none, [])
  | _ :: _ => (q.getLast?, q.dropLast)

/-- Fuelled pop-tail loop body; `drainPopTail` instantiates the fuel. -/
def drainFuel : Nat → List Nat → List Nat
  | 0, _ => []
  | _ + 1, [] => []
  | n + 1, q@(_ :: _) =>
    match (g_queue_pop_tail q).1 with
    | none => []
    | some b => b :: drainFuel n (g_queue_pop_tail q).2

/-- The order in which the teardown loop pops (and frees) the queued
output buffers: repeatedly `g_queue_pop_tail` until the queue is empty. -/
def drainPopTail (q : List Nat) : List Nat :=
  drainFuel q.length q

/-- Modelled from the spec: the protocol-output path (outside
`rtsp_client.c`, hence not under `src/`) enqueues each newly produced
pending output buffer at the head of the Client's output queue, so that
the tail of the queue always holds the oldest buffer and tail-popping
yields insertion (FIFO) order, per the spec's "output queue is drained
strictly in insertion (FIFO) order". -/
def g_queue_push_head (q : List Nat) (b : Nat) : List Nat := b :: q

/-- The queue state after enqueueing the buffers of `bufs` in order. -/
def enqueueAll (bufs : List Nat) : List Nat :=
  bufs.foldl g_queue_push_head []

theorem drainFuel_eq_reverse (n : Nat) :
    ∀ q : List Nat, q.length ≤ n → drainFuel n q = q.reverse := by
  induction n with
  | zero =>
    intro q hq
    have : q = [] := List.length_eq_zero.mp (Nat.le_zero.mp hq)
    subst this; rfl
  | succ n ih =>
    intro q hq
    match q with
    | [] => rfl
    | x :: xs =>
      have hne : (x :: xs : List Nat) ≠ [] := by simp
      have hlast : (x :: xs).getLast? = some ((x :: xs).getLast hne) :=
        List.getLast?_eq_getLast _ hne
      have hdrop : (x :: xs).dropLast.length ≤ n := by
        rw [List.length_dropLast]
        simp only [List.length_cons] at hq ⊢
        omega
      have hsplit : (x :: xs).dropLast ++ [(x :: xs).getLast hne] = x :: xs :=
        List.dropLast_append_getLast hne
      have hrev : (x :: xs).reverse
          = (x :: xs).getLast hne :: (x :: xs).dropLast.reverse := by
        conv_lhs => rw [← hsplit]
        simp
      rw [hrev]
      simp only [drainFuel, g_queue_pop_tail]
      rw [hlast]
      simp only []
      rw [ih _ hdrop]

theorem drainPopTail_eq_reverse (q : List Nat) : drainPopTail q = q.reverse :=
  drainFuel_eq_reverse q.length q (Nat.le_refl _)

theorem enqueueAll_eq_reverse (bufs : List Nat) : enqueueAll bufs = bufs.reverse := by
  have h : ∀ (l acc : List Nat), l.foldl g_queue_push_head acc = l.reverse ++ acc := by
    intro l
    induction l with
    | nil => intro acc; rfl
    | cons x xs ih =>
      intro acc
      simp only [List.foldl, g_queue_push_head, ih, List.reverse_cons]
      simp
  simpa using h bufs []

/-! ## Client and server state

`RTSP_Client` carries the fields of the C struct that the embedded
functions touch: the activity/pending state of its libev watchers, the
timer's repeat interval, the socket, the output queue and the record's
own allocation state. -/

structure RTSP_Client where
  ev_io_read_active : Bool
  ev_io_write_active : Bool
  ev_sig_disconnect_active : Bool
  ev_sig_disconnect_pending : Bool
  ev_timeout_active : Bool
  ev_timeout_repeat : Int
  sock_open : Bool
  out_queue : List Nat
  input_allocated : Bool
  freed : Bool
deriving DecidableEq, Repr

/-- The part of `feng *srv` the embedded functions use, together with the
one client the scenario follows. -/
structure ServState where
  connection_count : Int
  client : RTSP_Client
deriving DecidableEq, Repr

/-- One observable side effect of the teardown body, in program order. -/
inductive TAct where
  | stopRead
  | stopWrite
  | stopAsync
  | stopTimer
  | closeSock
  | decrConnCount
  | freeSession
  | freeInterleaved
  | releaseBuf (b : Nat)
  | freeOutQueue
  | freeInput
  | freeClient
  | graceSleep
  | exitProcess
deriving DecidableEq, Repr

/-- `client_ev_disconnect_handler` (rtsp_client.c lines 53-88): stops the
four watchers, closes the socket, decrements the connection counter,
frees the session, frees the interleaved list, pops and frees every
queued output buffer, frees the queue, the input array and the client
record; in the TRISOS build it then sleeps one second and exits the
child process. -/
def client_ev_disconnect_handler (trisos : Bool) (s : ServState) :
    ServState × List TAct :=
  let c := s.client
  let released := drainPopTail c.out_queue
  ({ connection_count := s.connection_count - 1
     client :=
      { ev_io_read_active := false
        ev_io_write_active := false
        ev_sig_disconnect_active := false
        ev_sig_disconnect_pending := false
        ev_timeout_active := false
        ev_timeout_repeat := c.ev_timeout_repeat
        sock_open := false
        out_queue := []
        input_allocated := false
        freed := true } },
   [TAct.stopRead, TAct.stopWrite, TAct.stopAsync, TAct.stopTimer,
    TAct.closeSock, TAct.decrConnCount, TAct.freeSession, TAct.freeInterleaved]
     ++ released.map TAct.releaseBuf
     ++ [TAct.freeOutQueue, TAct.freeInput, TAct.freeClient]
     ++ (if trisos then [TAct.graceSleep, TAct.exitProcess] else []))

/-! ## Disconnect signal event system (claim C1)

`requestDisconnect` is `ev_async_send(loop, &client->ev_sig_disconnect)` and
the teardown body is the async watcher's callback.  The event-loop side of
`ev_async` is not part of this repository; it is modelled from the spec:
the signal is a single coalescing pending bit per watcher (repeated wake
requests that arrive before the handler has run collapse into one), the
loop dispatches the callback of an active watcher whose bit is set,
clearing the bit, and a wake request after the watcher has been stopped
is a no-op.  A scenario is a list of `DiscEvent`s: each `send` is one
invocation of `requestDisconnect` (from any context), each `poll` is one
event-loop dispatch opportunity. -/

/-- One step of a disconnect scenario. -/
inductive DiscEvent where
  | send
  | poll
deriving DecidableEq, Repr

/-- Modelled from the spec: `ev_async_send` on the client's disconnect
watcher sets its coalescing pending bit; invoked after the watcher has
been stopped (teardown has begun) it is a no-op. -/
def ev_async_send (s : ServState) : ServState :=
  if s.client.ev_sig_disconnect_active then
    { s with client := { s.client with ev_sig_disconnect_pending := true } }
  else s

/-- Modelled from the spec: one dispatch opportunity of the event loop.
If the disconnect watcher is active and its pending bit is set, the loop
clears the bit and runs `client_ev_disconnect_handler`; otherwise nothing
happens.  Callbacks are serialized: the handler runs to completion within
this step. -/
def ev_loop_poll (trisos : Bool) (s : ServState) : ServState × List TAct :=
  if s.client.ev_sig_disconnect_active ∧ s.client.ev_sig_disconnect_pending then
    client_ev_disconnect_handler trisos
      { s with client := { s.client with ev_sig_disconnect_pending := false } }
  else (s, [])

/-- Run one scenario event. -/
def discStep (trisos : Bool) (s : ServState) : DiscEvent → ServState × List TAct
  | DiscEvent.send => (ev_async_send s, [])
  | DiscEvent.poll => ev_loop_poll trisos s

/-- Run a whole scenario, concatenating the emitted action traces. -/
def runEvents (trisos : Bool) (s : ServState) : List DiscEvent → ServState × List TAct
  | [] => (s, [])
  | e :: es =>
    let r1 := discStep trisos s e
    let r2 := runEvents trisos r1.1 es
    (r2.1, r1.2 ++ r2.2)

theorem count_freeClient_map_releaseBuf (l : List Nat) :
    (l.map TAct.releaseBuf).count TAct.freeClient = 0 := by
  induction l with
  | nil => rfl
  | cons b l ih => simp [List.count_cons, ih]

theorem handler_count_freeClient (trisos : Bool) (s : ServState) :
    (client_ev_disconnect_handler trisos s).2.count TAct.freeClient = 1 := by
  cases trisos <;>
    simp [client_ev_disconnect_handler, List.count_append, List.count_cons,
          count_freeClient_map_releaseBuf]

theorem handler_inactive (trisos : Bool) (s : ServState) :
    (client_ev_disconnect_handler trisos s).1.client.ev_sig_disconnect_active = false := by
  rfl

theorem handler_count_dec (trisos : Bool) (s : ServState) :
    (client_ev_disconnect_handler trisos s).1.connection_count
      = s.connection_count - 1 := by
  rfl

/-- After the watcher is stopped, every further event is a no-op: the run
emits nothing and leaves the state unchanged. -/
theorem runEvents_inactive (trisos : Bool) (evs : List DiscEvent) :
    ∀ s : ServState, s.client.ev_sig_disconnect_active = false →
      runEvents trisos s evs = (s, []) := by
  induction evs with
  | nil => intro s _; rfl
  | cons e es ih =>
    intro s hs
    match e with
    | DiscEvent.send =>
      have hsend : ev_async_send s = s := by
        simp [ev_async_send, hs]
      simp [runEvents, discStep, hsend, ih s hs]
    | DiscEvent.poll =>
      have hpoll : ev_loop_poll trisos s = (s, []) := by
        simp [ev_loop_poll, hs]
      simp [runEvents, discStep, hpoll, ih s hs]

/-- The teardown body runs at most once in any scenario from any state. -/
theorem runEvents_teardown_le_one (trisos : Bool) (evs : List DiscEvent) :
    ∀ s : ServState, (runEvents trisos s evs).2.count TAct.freeClient ≤ 1 := by
  induction evs with
  | nil => intro s; simp [runEvents]
  | cons e es ih =>
    intro s
    match e with
    | DiscEvent.send =>
      simp [runEvents, discStep, List.count_append]
      exact ih _
    | DiscEvent.poll =>
      by_cases h : s.client.ev_sig_disconnect_active ∧ s.client.ev_sig_disconnect_pending
      · have hfire : ev_loop_poll trisos s =
            client_ev_disconnect_handler trisos
              { s with client := { s.client with ev_sig_disconnect_pending := false } } := by
          simp [ev_loop_poll, h]
        have hrest := runEvents_inactive trisos es
            (client_ev_disconnect_handler trisos
              { s with client := { s.client with ev_sig_disconnect_pending := false } }).1
            (handler_inactive _ _)
        simp [runEvents, discStep, hfire, hrest, List.count_append,
              handler_count_freeClient]
      · have hid : ev_loop_poll trisos s = (s, []) := by
          simp [ev_loop_poll, h]
        simp [runEvents, discStep, hid]
        exact ih _

/-- The final connection count is the initial one minus the number of
teardown executions in the trace. -/
theorem runEvents_count_dec (trisos : Bool) (evs : List DiscEvent) :
    ∀ s : ServState,
      (runEvents trisos s evs).1.connection_count
        = s.connection_count - (runEvents trisos s evs).2.count TAct.freeClient := by
  induction evs with
  | nil => intro s; simp [runEvents]
  | cons e es ih =>
    intro s
    match e with
    | DiscEvent.send =>
      have hc : (ev_async_send s).connection_count = s.connection_count := by
        unfold ev_async_send
        split <;> rfl
      simp only [runEvents, discStep, List.nil_append]
      rw [ih (ev_async_send s), hc]
    | DiscEvent.poll =>
      by_cases h : s.client.ev_sig_disconnect_active ∧ s.client.ev_sig_disconnect_pending
      · have hfire : ev_loop_poll trisos s =
            client_ev_disconnect_handler trisos
              { s with client := { s.client with ev_sig_disconnect_pending := false } } := by
          simp [ev_loop_poll, h]
        have hrest := runEvents_inactive trisos es
            (client_ev_disconnect_handler trisos
              { s with client := { s.client with ev_sig_disconnect_pending := false } }).1
            (handler_inactive _ _)
        simp [runEvents, discStep, hfire, hrest, List.count_append,
              handler_count_freeClient, handler_count_dec]
      · have hid : ev_loop_poll trisos s = (s, []) := by
          simp [ev_loop_poll, h]
        simp only [runEvents, discStep, hid, List.nil_append]
        exact ih _

/-- From an armed-and-signalled state, a scenario containing at least one
dispatch opportunity executes the teardown body exactly once. -/
theorem runEvents_pending_fires (trisos : Bool) (evs : List DiscEvent) :
    ∀ s : ServState, s.client.ev_sig_disconnect_active = true →
      s.client.ev_sig_disconnect_pending = true →
      DiscEvent.poll ∈ evs →
      (runEvents trisos s evs).2.count TAct.freeClient = 1 := by
  induction evs with
  | nil => intro s _ _ hmem; cases hmem
  | cons e es ih =>
    intro s hact hpend hmem
    match e with
    | DiscEvent.send =>
      have hmem' : DiscEvent.poll ∈ es := by
        cases hmem with
        | tail _ h => exact h
      have hsend : ev_async_send s =
          { s with client := { s.client with ev_sig_disconnect_pending := true } } := by
        simp [ev_async_send, hact]
      simp only [runEvents, discStep, hsend, List.nil_append]
      exact ih _ hact rfl hmem'
    | DiscEvent.poll =>
      have h : s.client.ev_sig_disconnect_active ∧ s.client.ev_sig_disconnect_pending :=
        ⟨hact, hpend⟩
      have hfire : ev_loop_poll trisos s =
          client_ev_disconnect_handler trisos
            { s with client := { s.client with ev_sig_disconnect_pending := false } } := by
        simp [ev_loop_poll, h]
      have hrest := runEvents_inactive trisos es
          (client_ev_disconnect_handler trisos
            { s with client := { s.client with ev_sig_disconnect_pending := false } }).1
          (handler_inactive _ _)
      simp [runEvents, discStep, hfire, hrest, List.count_append,
            handler_count_freeClient]

/-- From an armed state, a scenario with a `send` later followed by a
dispatch opportunity executes the teardown body exactly once. -/
theorem runEvents_send_then_poll (trisos : Bool) (xs : List DiscEvent) :
    ∀ (s : ServState) (ys : List DiscEvent),
      s.client.ev_sig_disconnect_active = true →
      DiscEvent.poll ∈ ys →
      (runEvents trisos s (xs ++ DiscEvent.send :: ys)).2.count TAct.freeClient = 1 := by
  induction xs with
  | nil =>
    intro s ys hact hmem
    have hsend : ev_async_send s =
        { s with client := { s.client with ev_sig_disconnect_pending := true } } := by
      simp [ev_async_send, hact]
    simp only [List.nil_append, runEvents, discStep, hsend]
    exact runEvents_pending_fires trisos ys _ hact rfl hmem
  | cons e xs ih =>
    intro s ys hact hmem
    match e with
    | DiscEvent.send =>
      have hsend : ev_async_send s =
          { s with client := { s.client with ev_sig_disconnect_pending := true } } := by
        simp [ev_async_send, hact]
      simp only [List.cons_append, runEvents, discStep, hsend, List.nil_append]
      exact ih _ ys hact hmem
    | DiscEvent.poll =>
      by_cases h : s.client.ev_sig_disconnect_active ∧ s.client.ev_sig_disconnect_pending
      · have hfire : ev_loop_poll trisos s =
            client_ev_disconnect_handler trisos
              { s with client := { s.client with ev_sig_disconnect_pending := false } } := by
          simp [ev_loop_poll, h]
        have hrest := runEvents_inactive trisos (xs ++ DiscEvent.send :: ys)
            (client_ev_disconnect_handler trisos
              { s with client := { s.client with ev_sig_disconnect_pending := false } }).1
            (handler_inactive _ _)
        simp [runEvents, discStep, hfire, hrest, List.count_append,
              handler_count_freeClient]
      · have hid : ev_loop_poll trisos s = (s, []) := by
          simp [ev_loop_poll, h]
        simp only [List.cons_append, runEvents, discStep, hid, List.nil_append]
        exact ih _ ys hact hmem

/-! ## Incoming connection handling (rtsp_client.c lines 224-307)

`rtsp_client_incoming_cb` is embedded for the cooperative (non-TRISOS)
build; the admission guard of lines 239-245 is shared verbatim by both
builds, and the client-construction block of lines 258-289 is the body
the TRISOS child process also runs.  `ONE_FORK_MAX_CONNECTION` is a
configuration macro defined outside this file and is passed as the
`ceiling` parameter.  `Sock_accept` is represented by its result: whether
a pending connection was accepted. -/

/-- One observable side effect of the incoming-connection callback. -/
inductive IncAct where
  | closeClientSock
  | allocClient
  | incrConnCount
  | startRead
  | initWrite
  | startAsync
  | initTimer (rep : Int)
deriving DecidableEq, Repr

/-- Result of `rtsp_client_incoming_cb`: the connection count after the
call, the Client record it created (if any), and the emitted actions. -/
structure IncomingResult where
  connection_count : Int
  created : Option RTSP_Client
  acts : List IncAct
deriving DecidableEq, Repr

/-- `rtsp_client_incoming_cb`: accept one pending connection (or return
if none); close it and return if the connection count has reached the
ceiling; otherwise allocate a zeroed Client, attach the socket, fresh
input array and fresh output queue, increment the connection count,
init+start the read watcher, init (but do not start) the write watcher,
init+start the disconnect async watcher, and init the liveness timer
setting `repeat = STREAM_TIMEOUT` without starting it. -/
def rtsp_client_incoming_cb (ceiling : Int) (connection_count : Int)
    (accepted : Bool) : IncomingResult :=
  if ¬ accepted then
    { connection_count := connection_count, created := none, acts := [] }
  else if connection_count ≥ ceiling then
    { connection_count := connection_count, created := none,
      acts := [IncAct.closeClientSock] }
  else
    { connection_count := connection_count + 1
      created := some
        { ev_io_read_active := true
          ev_io_write_active := false
          ev_sig_disconnect_active := true
          ev_sig_disconnect_pending := false
          ev_timeout_active := false
          ev_timeout_repeat := STREAM_TIMEOUT
          sock_open := true
          out_queue := []
          input_allocated := true
          freed := false }
      acts := [IncAct.allocClient, IncAct.incrConnCount, IncAct.startRead,
               IncAct.initWrite, IncAct.startAsync,
               IncAct.initTimer STREAM_TIMEOUT] }

/-! ## Session timeout supervision (rtsp_client.c lines 90-147)

`check_if_any_rtp_session_timedout` is run for every RTP session of a
client on each liveness-timer tick.  The fields of `RTP_session` that the
function reads are embedded; `media_source_live` is the test
`session->track->properties.media_source == MS_live`, and `isBye` is the
C `int` flag compared against zero.  `rtcp_send_sr` lives in feng's RTCP
module, outside `src/`; its BYE case is modelled from the spec. -/

structure RTP_session where
  media_source_live : Bool
  last_packet_send_time : Int
  last_rtcp_read_time : Int
  isBye : Bool
deriving DecidableEq, Repr

/-- One observable action of a liveness tick on one session. -/
inductive TickAct where
  | sendBye
  | sendSdes
  | sendDisconnect
deriving DecidableEq, Repr

/-- Modelled from the spec: `rtcp_send_sr(session, BYE)` (in feng's RTCP
module, not under `src/`) emits a stream-ended BYE notification and
records it in the session's bye-sent flag; per the spec's Session
invariant "once a bye has been issued the session must not issue a
second bye before eviction", a session whose flag is already set does
not emit another BYE. -/
def rtcp_send_sr_bye (s : RTP_session) : RTP_session × List TickAct :=
  if s.isBye then (s, [])
  else ({ s with isBye := true }, [TickAct.sendBye])

/-- Modelled from the spec: `rtcp_send_sr(session, SDES)` emits a
control-channel heartbeat and does not change the session's state. -/
def rtcp_send_sr_sdes (s : RTP_session) : RTP_session × List TickAct :=
  (s, [TickAct.sendSdes])

/-- The second half of `check_if_any_rtp_session_timedout`, applied to
the session state `s1` left by the soft-expiry check and the actions
`acts` it emitted.  Non-TRISOS build (lines 110-114): if at least
`STREAM_TIMEOUT` has elapsed since the last packet send, signal the
owning client's disconnect watcher.  TRISOS build (lines 115-135): do so
only if the bye flag is set; otherwise send an SDES heartbeat and, when
`srvconf.rtcp_heartbeat` is nonzero and at least 60 seconds have elapsed
since the last RTCP read, signal the disconnect watcher. -/
def tick_hard_phase (trisos : Bool) (rtcp_heartbeat now : Int)
    (s1 : RTP_session) (acts : List TickAct) : RTP_session × List TickAct :=
  if ¬ trisos then
    if now - s1.last_packet_send_time ≥ STREAM_TIMEOUT then
      (s1, acts ++ [TickAct.sendDisconnect])
    else
      (s1, acts)
  else
    if s1.isBye ∧ now - s1.last_packet_send_time ≥ STREAM_TIMEOUT then
      (s1, acts ++ [TickAct.sendDisconnect])
    else if rtcp_heartbeat ≠ 0 ∧ now - s1.last_rtcp_read_time ≥ 60 then
      ((rtcp_send_sr_sdes s1).1, acts ++ (rtcp_send_sr_sdes s1).2 ++ [TickAct.sendDisconnect])
    else
      ((rtcp_send_sr_sdes s1).1, acts ++ (rtcp_send_sr_sdes s1).2)

/-- `check_if_any_rtp_session_timedout` for one session at time `now`.
Lines 100-104 (both builds): if the media source is live and at least
`LIVE_STREAM_BYE_TIMEOUT` has elapsed since the last packet send, send a
BYE; then run the hard-expiry phase on the resulting session state. -/
def check_if_any_rtp_session_timedout (trisos : Bool) (rtcp_heartbeat : Int)
    (now : Int) (s : RTP_session) : RTP_session × List TickAct :=
  if s.media_source_live ∧ now - s.last_packet_send_time ≥ LIVE_STREAM_BYE_TIMEOUT
  then
    tick_hard_phase trisos rtcp_heartbeat now
      (rtcp_send_sr_bye s).1 (rtcp_send_sr_bye s).2
  else
    tick_hard_phase trisos rtcp_heartbeat now s []

/-- A run of liveness ticks over one session.  Each element of the input
list is one tick: the wall-clock time `time(NULL)` at the tick, and the
session's `last_packet_send_time` and `last_rtcp_read_time` as set by
the (external) media-send and RTCP-read paths since the previous tick.
The bye-sent flag is the state threaded through the run. -/
def runTicks (trisos : Bool) (rtcp_heartbeat : Int) (s : RTP_session) :
    List (Int × Int × Int) → RTP_session × List TickAct
  | [] => (s, [])
  | (now, lpt, lrt) :: rest =>
    let s0 := { s with last_packet_send_time := lpt, last_rtcp_read_time := lrt }
    let r1 := check_if_any_rtp_session_timedout trisos rtcp_heartbeat now s0
    let r2 := runTicks trisos rtcp_heartbeat r1.1 rest
    (r2.1, r1.2 ++ r2.2)

/-! ### Properties of one liveness tick -/

/-- Does a trace contain a BYE emission? -/
def hasBye : List TickAct → Bool
  | [] => false
  | TickAct.sendBye :: _ => true
  | _ :: rest => hasBye rest

/-- Every disconnect request in the trace comes after some BYE emission
(`seen` records whether a BYE was already emitted before the trace). -/
def byeBefore : Bool → List TickAct → Bool
  | _, [] => true
  | seen, TickAct.sendDisconnect :: rest => seen && byeBefore seen rest
  | _, TickAct.sendBye :: rest => byeBefore true rest
  | seen, TickAct.sendSdes :: rest => byeBefore seen rest

theorem hasBye_append (l1 l2 : List TickAct) :
    hasBye (l1 ++ l2) = (hasBye l1 || hasBye l2) := by
  induction l1 with
  | nil => simp [hasBye]
  | cons a l1 ih =>
    cases a <;> simp [hasBye, ih]

theorem hasBye_iff_mem (l : List TickAct) :
    hasBye l = true ↔ TickAct.sendBye ∈ l := by
  induction l with
  | nil => simp [hasBye]
  | cons a l ih =>
    cases a <;> simp [hasBye, ih]

theorem byeBefore_true (l : List TickAct) : byeBefore true l = true := by
  induction l with
  | nil => rfl
  | cons a l ih => cases a <;> simp [byeBefore, ih]

theorem byeBefore_append (l1 l2 : List TickAct) :
    ∀ b, byeBefore b (l1 ++ l2)
      = (byeBefore b l1 && byeBefore (b || hasBye l1) l2) := by
  induction l1 with
  | nil => intro b; simp [byeBefore, hasBye]
  | cons a l1 ih =>
    intro b
    cases a with
    | sendBye =>
      simp [byeBefore, hasBye, ih, byeBefore_true]
    | sendSdes =>
      simp [byeBefore, hasBye, ih]
    | sendDisconnect =>
      simp [byeBefore, hasBye, ih]
      cases b <;> simp

theorem byeBefore_disc_mem (l : List TickAct) :
    ∀ b, byeBefore b l = true → TickAct.sendDisconnect ∈ l →
      b = true ∨ TickAct.sendBye ∈ l := by
  induction l with
  | nil => intro b _ hmem; cases hmem
  | cons a l ih =>
    intro b hbb hmem
    cases a with
    | sendBye => right; exact List.mem_cons_self _ _
    | sendSdes =>
      have hmem' : TickAct.sendDisconnect ∈ l := by
        cases hmem with
        | tail _ h => exact h
      rcases ih b (by simpa [byeBefore] using hbb) hmem' with h | h
      · left; exact h
      · right; exact List.mem_cons_of_mem _ h
    | sendDisconnect =>
      simp [byeBefore] at hbb
      left; exact hbb.1

theorem count_bye_of_not_hasBye (l : List TickAct) (h : hasBye l = false) :
    l.count TickAct.sendBye = 0 := by
  induction l with
  | nil => rfl
  | cons a l ih =>
    cases a with
    | sendBye => simp [hasBye] at h
    | sendSdes =>
      simp [hasBye] at h
      simp [List.count_cons, ih h]
    | sendDisconnect =>
      simp [hasBye] at h
      simp [List.count_cons, ih h]

/-- The hard-expiry phase does not change the session state. -/
theorem tick_hard_phase_state (t : Bool) (hb now : Int) (s1 : RTP_session)
    (acts : List TickAct) : (tick_hard_phase t hb now s1 acts).1 = s1 := by
  unfold tick_hard_phase rtcp_send_sr_sdes
  split_ifs <;> rfl

/-- The hard-expiry phase appends a BYE-free suffix to the soft-phase
actions. -/
theorem tick_hard_phase_trace (t : Bool) (hb now : Int) (s1 : RTP_session)
    (acts : List TickAct) :
    ∃ tail, (tick_hard_phase t hb now s1 acts).2 = acts ++ tail
      ∧ hasBye tail = false := by
  cases t with
  | false =>
    by_cases h : now - s1.last_packet_send_time ≥ STREAM_TIMEOUT
    · exact ⟨[TickAct.sendDisconnect], by simp [tick_hard_phase, h], rfl⟩
    · exact ⟨[], by simp [tick_hard_phase, h], rfl⟩
  | true =>
    by_cases h1 : s1.isBye = true ∧ now - s1.last_packet_send_time ≥ STREAM_TIMEOUT
    · exact ⟨[TickAct.sendDisconnect], by simp [tick_hard_phase, h1], rfl⟩
    · by_cases h2 : hb ≠ 0 ∧ now - s1.last_rtcp_read_time ≥ 60
      · exact ⟨[TickAct.sendSdes, TickAct.sendDisconnect],
          by simp [tick_hard_phase, rtcp_send_sr_sdes, h1, h2], rfl⟩
      · exact ⟨[TickAct.sendSdes],
          by simp [tick_hard_phase, rtcp_send_sr_sdes, h1, h2], rfl⟩

/-- `rtcp_send_sr(session, BYE)` changes no field other than the bye flag. -/
theorem rtcp_send_sr_bye_fields (s : RTP_session) :
    (rtcp_send_sr_bye s).1.media_source_live = s.media_source_live ∧
    (rtcp_send_sr_bye s).1.last_packet_send_time = s.last_packet_send_time ∧
    (rtcp_send_sr_bye s).1.last_rtcp_read_time = s.last_rtcp_read_time := by
  unfold rtcp_send_sr_bye
  split_ifs <;> exact ⟨rfl, rfl, rfl⟩

/-- One tick never changes the session's media-source classification. -/
theorem tick_live_preserved (t : Bool) (hb now : Int) (s : RTP_session) :
    (check_if_any_rtp_session_timedout t hb now s).1.media_source_live
      = s.media_source_live := by
  unfold check_if_any_rtp_session_timedout
  split_ifs
  · rw [tick_hard_phase_state]
    exact (rtcp_send_sr_bye_fields s).1
  · rw [tick_hard_phase_state]

/-- After one tick the bye flag is set iff it was set before or the tick
emitted a BYE. -/
theorem tick_isBye_eq (t : Bool) (hb now : Int) (s : RTP_session) :
    (check_if_any_rtp_session_timedout t hb now s).1.isBye
      = (s.isBye || hasBye (check_if_any_rtp_session_timedout t hb now s).2) := by
  unfold check_if_any_rtp_session_timedout
  split_ifs with hsoft
  · cases hb1 : s.isBye
    · simp only [rtcp_send_sr_bye, hb1, Bool.false_eq_true, if_false]
      obtain ⟨tail, htr, _⟩ :=
        tick_hard_phase_trace t hb now { s with isBye := true } [TickAct.sendBye]
      rw [tick_hard_phase_state, htr, hasBye_append]
      simp [hasBye]
    · simp only [rtcp_send_sr_bye, hb1, if_true]
      obtain ⟨tail, htr, _⟩ := tick_hard_phase_trace t hb now s []
      rw [tick_hard_phase_state, htr]
      simp [hb1]
  · obtain ⟨tail, htr, htail⟩ := tick_hard_phase_trace t hb now s []
    rw [tick_hard_phase_state, htr]
    simp [htail]

/-- One tick emits at most one BYE, and none if the flag is already set. -/
theorem tick_count_bye (t : Bool) (hb now : Int) (s : RTP_session) :
    (check_if_any_rtp_session_timedout t hb now s).2.count TickAct.sendBye ≤ 1 ∧
    (s.isBye = true →
      (check_if_any_rtp_session_timedout t hb now s).2.count TickAct.sendBye = 0) := by
  unfold check_if_any_rtp_session_timedout
  split_ifs with hsoft
  · cases hb1 : s.isBye
    · simp only [rtcp_send_sr_bye, hb1, Bool.false_eq_true, if_false]
      obtain ⟨tail, htr, htail⟩ :=
        tick_hard_phase_trace t hb now { s with isBye := true } [TickAct.sendBye]
      rw [htr]
      simp [List.count_append, List.count_cons, count_bye_of_not_hasBye tail htail, hb1]
    · simp only [rtcp_send_sr_bye, hb1, if_true]
      obtain ⟨tail, htr, htail⟩ := tick_hard_phase_trace t hb now s []
      rw [htr]
      simp [count_bye_of_not_hasBye tail htail]
  · obtain ⟨tail, htr, htail⟩ := tick_hard_phase_trace t hb now s []
    rw [htr]
    simp [count_bye_of_not_hasBye tail htail]

/-- In the default build, the hard-expiry phase on a session that stalled
for at least `STREAM_TIMEOUT` emits the disconnect request. -/
theorem tick_hard_phase_disc (hb now : Int) (s1 : RTP_session)
    (acts : List TickAct) (h : now - s1.last_packet_send_time ≥ STREAM_TIMEOUT) :
    (tick_hard_phase false hb now s1 acts).2 = acts ++ [TickAct.sendDisconnect] := by
  unfold tick_hard_phase
  simp [h]

/-- TRISOS hard phase: a tick that is not hard-expiring emits the SDES
heartbeat, and with heartbeat supervision enabled any tick observing at
least 60 units since the last RTCP read emits a disconnect request. -/
theorem tick_hard_phase_trisos (hb now : Int) (s1 : RTP_session)
    (acts : List TickAct) (hhb : hb ≠ 0) :
    (¬ (s1.isBye = true ∧ now - s1.last_packet_send_time ≥ STREAM_TIMEOUT) →
      TickAct.sendSdes ∈ (tick_hard_phase true hb now s1 acts).2) ∧
    (now - s1.last_rtcp_read_time ≥ 60 →
      TickAct.sendDisconnect ∈ (tick_hard_phase true hb now s1 acts).2) := by
  unfold tick_hard_phase rtcp_send_sr_sdes
  by_cases h1 : s1.isBye = true ∧ now - s1.last_packet_send_time ≥ STREAM_TIMEOUT
  · simp [h1]
  · by_cases h2 : now - s1.last_rtcp_read_time ≥ 60
    · simp [h1, h2, hhb]
    · simp [h1, h2]

/-- In the two configurations the claims concern (default build on a live
session; TRISOS build with heartbeat supervision disabled), every
disconnect a tick emits comes after a BYE. -/
theorem tick_byeBefore (t : Bool) (hb now : Int) (s : RTP_session)
    (hcond : (t = false ∧ s.media_source_live = true) ∨ (t = true ∧ hb = 0)) :
    byeBefore s.isBye (check_if_any_rtp_session_timedout t hb now s).2 = true := by
  cases hb1 : s.isBye
  · unfold check_if_any_rtp_session_timedout
    split_ifs with hsoft
    · simp only [rtcp_send_sr_bye, hb1, Bool.false_eq_true, if_false]
      obtain ⟨tail, htr, _⟩ :=
        tick_hard_phase_trace t hb now { s with isBye := true } [TickAct.sendBye]
      rw [htr]
      simp [byeBefore, byeBefore_true]
    · rcases hcond with ⟨ht, hlive⟩ | ⟨ht, hhb⟩
      · subst ht
        have hstall : ¬ (now - s.last_packet_send_time ≥ LIVE_STREAM_BYE_TIMEOUT) := by
          intro hc
          exact hsoft ⟨hlive, hc⟩
        have hhard : ¬ (now - s.last_packet_send_time ≥ STREAM_TIMEOUT) := by
          unfold LIVE_STREAM_BYE_TIMEOUT at hstall
          unfold STREAM_TIMEOUT
          omega
        unfold tick_hard_phase
        simp [hhard, byeBefore]
      · subst ht
        unfold tick_hard_phase rtcp_send_sr_sdes
        simp [hb1, hhb, byeBefore]
  · exact byeBefore_true _

/-- In the default build, a tick that observes at least `STREAM_TIMEOUT`
since the last packet send emits a disconnect request. -/
theorem tick_disc_of_stalled (hb now : Int) (s : RTP_session)
    (h : now - s.last_packet_send_time ≥ STREAM_TIMEOUT) :
    TickAct.sendDisconnect ∈ (check_if_any_rtp_session_timedout false hb now s).2 := by
  unfold check_if_any_rtp_session_timedout
  split_ifs with hsoft
  · have hx : now - (rtcp_send_sr_bye s).1.last_packet_send_time ≥ STREAM_TIMEOUT := by
      rw [(rtcp_send_sr_bye_fields s).2.1]
      exact h
    rw [tick_hard_phase_disc hb now _ _ hx]
    simp
  · rw [tick_hard_phase_disc hb now _ _ h]
    simp

/-! ### Properties of tick runs -/

theorem runTicks_live_preserved (t : Bool) (hb : Int)
    (ticks : List (Int × Int × Int)) :
    ∀ s, (runTicks t hb s ticks).1.media_source_live = s.media_source_live := by
  induction ticks with
  | nil => intro s; rfl
  | cons p rest ih =>
    intro s
    obtain ⟨now, lpt, lrt⟩ := p
    simp only [runTicks]
    rw [ih, tick_live_preserved]

/-- Over any tick run in the claimed configurations, every emitted
disconnect is preceded by an emitted BYE (relative to the initial state
of the bye flag). -/
theorem runTicks_byeBefore (t : Bool) (hb : Int)
    (ticks : List (Int × Int × Int)) :
    ∀ s, ((t = false ∧ s.media_source_live = true) ∨ (t = true ∧ hb = 0)) →
      byeBefore s.isBye (runTicks t hb s ticks).2 = true := by
  induction ticks with
  | nil => intro s _; rfl
  | cons p rest ih =>
    intro s hcond
    obtain ⟨now, lpt, lrt⟩ := p
    simp only [runTicks]
    set s0 : RTP_session :=
      { s with last_packet_send_time := lpt, last_rtcp_read_time := lrt } with hs0
    have hcond0 : (t = false ∧ s0.media_source_live = true) ∨ (t = true ∧ hb = 0) := by
      rcases hcond with ⟨ht, hlive⟩ | h
      · left; exact ⟨ht, hlive⟩
      · right; exact h
    rw [byeBefore_append]
    have h1 : byeBefore s.isBye (check_if_any_rtp_session_timedout t hb now s0).2 = true := by
      have := tick_byeBefore t hb now s0 hcond0
      simpa [hs0] using this
    have h2 : (check_if_any_rtp_session_timedout t hb now s0).1.isBye
        = (s.isBye || hasBye (check_if_any_rtp_session_timedout t hb now s0).2) := by
      have := tick_isBye_eq t hb now s0
      simpa [hs0] using this
    have hcond1 : (t = false ∧
        (check_if_any_rtp_session_timedout t hb now s0).1.media_source_live = true)
        ∨ (t = true ∧ hb = 0) := by
      rcases hcond with ⟨ht, hlive⟩ | h
      · left
        refine ⟨ht, ?_⟩
        rw [tick_live_preserved]
        exact hlive
      · right; exact h
    have h3 := ih (check_if_any_rtp_session_timedout t hb now s0).1 hcond1
    rw [h1, ← h2, h3]
    rfl

/-- Over any tick run, the session emits at most one BYE, and none at all
if its bye flag was already set. -/
theorem runTicks_count_bye (t : Bool) (hb : Int)
    (ticks : List (Int × Int × Int)) :
    ∀ s, (runTicks t hb s ticks).2.count TickAct.sendBye
      ≤ (if s.isBye then 0 else 1) := by
  induction ticks with
  | nil => intro s; simp [runTicks]
  | cons p rest ih =>
    intro s
    obtain ⟨now, lpt, lrt⟩ := p
    simp only [runTicks, List.count_append]
    set s0 : RTP_session :=
      { s with last_packet_send_time := lpt, last_rtcp_read_time := lrt } with hs0
    have htick := tick_count_bye t hb now s0
    have hflag := tick_isBye_eq t hb now s0
    have hih := ih (check_if_any_rtp_session_timedout t hb now s0).1
    cases hbye : s.isBye
    · have h0 : s0.isBye = false := by simp [hs0, hbye]
      cases hhb : hasBye (check_if_any_rtp_session_timedout t hb now s0).2
      · have hcnt : (check_if_any_rtp_session_timedout t hb now s0).2.count
            TickAct.sendBye = 0 :=
          count_bye_of_not_hasBye _ hhb
        have hflag1 : (check_if_any_rtp_session_timedout t hb now s0).1.isBye = false := by
          rw [hflag, h0, hhb]; rfl
        rw [hflag1] at hih
        simp [hbye, hcnt] at hih ⊢
        omega
      · have hflag1 : (check_if_any_rtp_session_timedout t hb now s0).1.isBye = true := by
          rw [hflag, h0, hhb]; rfl
        rw [hflag1] at hih
        simp at hih
        simp [hbye]
        omega
    · have h0 : s0.isBye = true := by simp [hs0, hbye]
      have hcnt := htick.2 h0
      have hflag1 : (check_if_any_rtp_session_timedout t hb now s0).1.isBye = true := by
        rw [hflag, h0]; rfl
      rw [hflag1] at hih
      simp [hbye, hcnt]
      simpa using hih

/-- In the default build, a run containing a tick that observes at least
`STREAM_TIMEOUT` since the last packet send emits a disconnect request. -/
theorem runTicks_disc_of_stalled (hb : Int) (ticks : List (Int × Int × Int)) :
    ∀ s, (∃ p ∈ ticks, p.1 - p.2.1 ≥ STREAM_TIMEOUT) →
      TickAct.sendDisconnect ∈ (runTicks false hb s ticks).2 := by
  induction ticks with
  | nil =>
    intro s h
    obtain ⟨p, hp, _⟩ := h
    cases hp
  | cons p rest ih =>
    intro s h
    obtain ⟨now, lpt, lrt⟩ := p
    simp only [runTicks, List.mem_append]
    obtain ⟨q, hq, hstall⟩ := h
    rcases List.mem_cons.mp hq with hq | hq
    · left
      subst hq
      exact tick_disc_of_stalled hb now _ (by simpa using hstall)
    · right
      exact ih _ ⟨q, hq, hstall⟩

/-! ## Child-process reaping (TRISOS build, rtsp_client.c lines 153-180)

`timer_watcher_cb` loops over `waitpid(-1, NULL, WNOHANG)` until no more
terminated children are reported, and for each reported pid whose
tracking record is found, removes the record, decrements the connection
counter and releases the child's reserved port pair.  The operating
system's zombie queue is modelled as the list `zombies` (head = next pid
`waitpid` reports; an empty list makes `waitpid` return no child).
`get_client_list_item`, `reduce_client_list` and `free_child_port` live
outside `rtsp_client.c` and are modelled from the spec. -/

/-- One child tracking record: process identifier and reserved port-pair
resource. -/
structure client_port_pair where
  pid : Int
  port_resource : Nat
deriving DecidableEq, Repr

/-- Modelled from the spec: `get_client_list_item(pid)` locates the
tracking record registered for `pid`, if any. -/
def get_client_list_item (l : List client_port_pair) (p : Int) :
    Option client_port_pair :=
  match l with
  | [] => none
  | c :: rest => if c.pid = p then some c else get_client_list_item rest p

/-- Modelled from the spec: `reduce_client_list(client)` removes the
located tracking record from the list. -/
def reduce_client_list (l : List client_port_pair) (p : Int) :
    List client_port_pair :=
  match l with
  | [] => []
  | c :: rest => if c.pid = p then rest else c :: reduce_client_list rest p

/-- Number of tracking records registered for `p`. -/
def pidCount (l : List client_port_pair) (p : Int) : Nat :=
  match l with
  | [] => 0
  | c :: rest => (if c.pid = p then 1 else 0) + pidCount rest p

/-- State of the reaping worker: pending zombie pids, the tracking list,
the multiset of released port resources (represented as the release
order), and the worker's connection counter. -/
structure ReaperState where
  zombies : List Int
  client_list : List client_port_pair
  freed_resources : List Nat
  connection_count : Int
deriving DecidableEq, Repr

/-- The `while(1)` body of `timer_watcher_cb`, recursing on the pids
`waitpid` will report: for each reported pid with a tracking record,
remove the record (`reduce_client_list`), decrement
`srv->connection_count`, and release the reserved ports
(`free_child_port`, modelled by recording the freed resource); a pid
without a record is skipped; the loop exits when `waitpid` reports no
more terminated children. -/
def reapLoop : List Int → List client_port_pair → List Nat → Int → ReaperState
  | [], cl, fr, cc => ⟨[], cl, fr, cc⟩
  | p :: rest, cl, fr, cc =>
    match get_client_list_item cl p with
    | some c =>
      reapLoop rest (reduce_client_list cl p) (fr ++ [c.port_resource]) (cc - 1)
    | none =>
      reapLoop rest cl fr cc

/-- `timer_watcher_cb`: one firing of the reaper timer. -/
def timer_watcher_cb (s : ReaperState) : ReaperState :=
  reapLoop s.zombies s.client_list s.freed_resources s.connection_count

theorem get_client_list_item_none_iff (l : List client_port_pair) (p : Int) :
    get_client_list_item l p = none ↔ pidCount l p = 0 := by
  induction l with
  | nil => simp [get_client_list_item, pidCount]
  | cons c rest ih =>
    by_cases h : c.pid = p
    · simp [get_client_list_item, pidCount, h]
    · simp [get_client_list_item, pidCount, h, ih]

theorem pidCount_reduce_self (l : List client_port_pair) (p : Int) :
    pidCount (reduce_client_list l p) p = pidCount l p - 1 := by
  induction l with
  | nil => simp [reduce_client_list, pidCount]
  | cons c rest ih =>
    by_cases h : c.pid = p
    · simp [reduce_client_list, pidCount, h]
    · simp [reduce_client_list, pidCount, h, ih]

theorem pidCount_reduce_other (l : List client_port_pair) (p q : Int)
    (hpq : p ≠ q) : pidCount (reduce_client_list l p) q = pidCount l q := by
  induction l with
  | nil => simp [reduce_client_list]
  | cons c rest ih =>
    by_cases h : c.pid = p
    · simp [reduce_client_list, pidCount, h, hpq]
    · simp [reduce_client_list, pidCount, h, ih]

theorem length_reduce_of_found (l : List client_port_pair) (p : Int)
    (h : 1 ≤ pidCount l p) :
    (reduce_client_list l p).length = l.length - 1 := by
  induction l with
  | nil => simp [pidCount] at h
  | cons c rest ih =>
    by_cases hc : c.pid = p
    · simp [reduce_client_list, hc]
    · simp [pidCount, hc] at h
      simp [reduce_client_list, hc, ih h]
      have : 1 ≤ rest.length := by
        by_contra hlen
        have : rest.length = 0 := by omega
        have : rest = [] := List.length_eq_zero.mp this
        subst this
        simp [pidCount] at h
      omega

theorem get_client_list_item_some_of_count (l : List client_port_pair)
    (p : Int) (h : 1 ≤ pidCount l p) :
    ∃ c, get_client_list_item l p = some c := by
  induction l with
  | nil => simp [pidCount] at h
  | cons c rest ih =>
    by_cases hc : c.pid = p
    · exact ⟨c, by simp [get_client_list_item, hc]⟩
    · simp [pidCount, hc] at h
      obtain ⟨c1, hc1⟩ := ih h
      exact ⟨c1, by simp [get_client_list_item, hc, hc1]⟩

/-- Reaping never adds tracking records for any pid. -/
theorem reapLoop_pidCount_mono (zs : List Int) :
    ∀ (cl : List client_port_pair) (fr : List Nat) (cc : Int) (q : Int),
      pidCount (reapLoop zs cl fr cc).client_list q ≤ pidCount cl q := by
  induction zs with
  | nil => intro cl fr cc q; simp [reapLoop]
  | cons p rest ih =>
    intro cl fr cc q
    match hg : get_client_list_item cl p with
    | some c =>
      simp only [reapLoop, hg]
      refine le_trans (ih _ _ _ q) ?_
      by_cases hpq : p = q
      · subst hpq
        rw [pidCount_reduce_self]
        omega
      · rw [pidCount_reduce_other _ _ _ hpq]
    | none =>
      simp only [reapLoop, hg]
      exact ih _ _ _ q

/-- Completeness of one reaper pass: if every pending zombie pid has
exactly one tracking record, the pass consumes every zombie, removes all
their records, releases all their port resources, and decrements the
connection counter once per zombie. -/
theorem reapLoop_spec (zs : List Int) :
    ∀ (cl : List client_port_pair) (fr : List Nat) (cc : Int),
      zs.Nodup → (∀ p ∈ zs, pidCount cl p = 1) →
      (reapLoop zs cl fr cc).connection_count = cc - zs.length ∧
      (reapLoop zs cl fr cc).client_list.length = cl.length - zs.length ∧
      (reapLoop zs cl fr cc).freed_resources.length = fr.length + zs.length ∧
      (∀ p ∈ zs, get_client_list_item (reapLoop zs cl fr cc).client_list p = none) ∧
      (reapLoop zs cl fr cc).zombies = [] := by
  induction zs with
  | nil =>
    intro cl fr cc _ _
    refine ⟨by simp [reapLoop], by simp [reapLoop], by simp [reapLoop], ?_, rfl⟩
    intro p hp
    cases hp
  | cons p rest ih =>
    intro cl fr cc hnd hcount
    obtain ⟨hp_not_mem, hrest_nd⟩ := List.nodup_cons.mp hnd
    have hcp : pidCount cl p = 1 := hcount p (List.mem_cons_self _ _)
    obtain ⟨c, hc⟩ := get_client_list_item_some_of_count cl p (by omega)
    have hcl1 : ∀ q ∈ rest, pidCount (reduce_client_list cl p) q = 1 := by
      intro q hq
      have hqp : p ≠ q := by
        intro hE
        exact hp_not_mem (hE ▸ hq)
      rw [pidCount_reduce_other _ _ _ hqp]
      exact hcount q (List.mem_cons_of_mem _ hq)
    have hlen1 : (reduce_client_list cl p).length = cl.length - 1 :=
      length_reduce_of_found cl p (by omega)
    have hself : pidCount (reduce_client_list cl p) p = 0 := by
      rw [pidCount_reduce_self, hcp]
    obtain ⟨hcc, hlen, hfr, hnone, hz⟩ :=
      ih (reduce_client_list cl p) (fr ++ [c.port_resource]) (cc - 1) hrest_nd hcl1
    refine ⟨?_, ?_, ?_, ?_, ?_⟩
    · simp only [reapLoop, hc]
      rw [hcc]
      simp
      omega
    · simp only [reapLoop, hc]
      rw [hlen, hlen1]
      simp
      omega
    · simp only [reapLoop, hc]
      rw [hfr]
      simp
      omega
    · intro q hq
      rcases List.mem_cons.mp hq with hq | hq
      · subst hq
        simp only [reapLoop, hc]
        rw [get_client_list_item_none_iff]
        have hmono := reapLoop_pidCount_mono rest
          (reduce_client_list cl q) (fr ++ [c.port_resource]) (cc - 1) q
        omega
      · simp only [reapLoop, hc]
        exact hnone q hq
    · simp only [reapLoop, hc]
      exact hz

/-! ## Claim theorems -/

/-- Is this teardown action one of the four watcher stops? -/
def isWatcherStop : TAct → Bool
  | TAct.stopRead => true
  | TAct.stopWrite => true
  | TAct.stopAsync => true
  | TAct.stopTimer => true
  | _ => false

/-- The buffer released by a teardown action, if it is a buffer release. -/
def relBuf : TAct → Option Nat
  | TAct.releaseBuf b => some b
  | _ => none

theorem filterMap_relBuf_map (l : List Nat) :
    (l.map TAct.releaseBuf).filterMap relBuf = l := by
  induction l with
  | nil => rfl
  | cons b l ih => simp [relBuf, ih]

theorem filterMap_relBuf_comp (l : List Nat) :
    List.filterMap (relBuf ∘ TAct.releaseBuf) l = l := by
  induction l with
  | nil => rfl
  | cons b l ih => simp [relBuf, ih]

/-- Claim C1: for every Client, no matter how many times and from how many
contexts `requestDisconnect` (`ev_async_send` on the client's
`ev_sig_disconnect`) is invoked, the teardown body executes at most once
in any event scenario; and in any scenario that invokes it on a wired
client and later gives the event loop a dispatch opportunity, the
teardown body executes exactly once and exactly one decrement of the
server's live-connection counter results. -/
theorem C1_at_most_once_teardown (trisos : Bool) (s : ServState)
    (evs : List DiscEvent) :
    (runEvents trisos s evs).2.count TAct.freeClient ≤ 1 ∧
    (s.client.ev_sig_disconnect_active = true →
      ∀ xs ys, evs = xs ++ DiscEvent.send :: ys → DiscEvent.poll ∈ ys →
        (runEvents trisos s evs).2.count TAct.freeClient = 1 ∧
        (runEvents trisos s evs).1.connection_count = s.connection_count - 1) := by
  refine ⟨runEvents_teardown_le_one trisos evs s, ?_⟩
  intro hact xs ys hevs hpoll
  subst hevs
  have h1 := runEvents_send_then_poll trisos xs s ys hact hpoll
  refine ⟨h1, ?_⟩
  rw [runEvents_count_dec, h1]
  simp

/-- Witness for C1: two concurrent disconnect requests on a wired client
followed by two loop iterations tear down once and decrement once. -/
theorem C1_at_most_once_teardown_witness :
    ({ connection_count := 5,
       client :=
        { ev_io_read_active := true, ev_io_write_active := false,
          ev_sig_disconnect_active := true, ev_sig_disconnect_pending := false,
          ev_timeout_active := false, ev_timeout_repeat := STREAM_TIMEOUT,
          sock_open := true, out_queue := [7, 8], input_allocated := true,
          freed := false } } : ServState).client.ev_sig_disconnect_active = true ∧
    (runEvents false
      { connection_count := 5,
        client :=
         { ev_io_read_active := true, ev_io_write_active := false,
           ev_sig_disconnect_active := true, ev_sig_disconnect_pending := false,
           ev_timeout_active := false, ev_timeout_repeat := STREAM_TIMEOUT,
           sock_open := true, out_queue := [7, 8], input_allocated := true,
           freed := false } }
      [DiscEvent.send, DiscEvent.send, DiscEvent.poll, DiscEvent.poll]).2.count
        TAct.freeClient = 1 := by
  refine ⟨rfl, ?_⟩
  exact ((C1_at_most_once_teardown false _
    [DiscEvent.send, DiscEvent.send, DiscEvent.poll, DiscEvent.poll]).2 rfl
    [DiscEvent.send] [DiscEvent.poll, DiscEvent.poll] rfl (by decide)).1

/-- Claim C2: the teardown body performs, in order: stop read watcher, stop
write watcher, stop the disconnect signal, stop the liveness timer,
close the connection, decrement the live-connection counter, free the
owned sessions, (free the interleaved-channel list), release the queued
output buffers, release the queue container, release the input buffer,
release the Client record; every watcher stop precedes every release. -/
theorem C2_teardown_order (trisos : Bool) (s : ServState) :
    (client_ev_disconnect_handler trisos s).2
      = [TAct.stopRead, TAct.stopWrite, TAct.stopAsync, TAct.stopTimer,
         TAct.closeSock, TAct.decrConnCount, TAct.freeSession, TAct.freeInterleaved]
          ++ (drainPopTail s.client.out_queue).map TAct.releaseBuf
          ++ [TAct.freeOutQueue, TAct.freeInput, TAct.freeClient]
          ++ (if trisos then [TAct.graceSleep, TAct.exitProcess] else []) ∧
    ∃ post,
      (client_ev_disconnect_handler trisos s).2
        = [TAct.stopRead, TAct.stopWrite, TAct.stopAsync, TAct.stopTimer] ++ post ∧
      ∀ a ∈ post, isWatcherStop a = false := by
  constructor
  · simp [client_ev_disconnect_handler]
  · refine ⟨[TAct.closeSock, TAct.decrConnCount, TAct.freeSession, TAct.freeInterleaved]
        ++ (drainPopTail s.client.out_queue).map TAct.releaseBuf
        ++ [TAct.freeOutQueue, TAct.freeInput, TAct.freeClient]
        ++ (if trisos then [TAct.graceSleep, TAct.exitProcess] else []), ?_, ?_⟩
    · simp [client_ev_disconnect_handler]
    · intro a ha
      simp only [List.mem_append, List.mem_cons, List.not_mem_nil, or_false,
                 List.mem_map] at ha
      rcases ha with (((h | h | h | h) | ⟨b, _, h⟩) | (h | h | h)) | h
      · subst h; rfl
      · subst h; rfl
      · subst h; rfl
      · subst h; rfl
      · subst h; rfl
      · subst h; rfl
      · subst h; rfl
      · subst h; rfl
      · cases trisos
        · simp at h
        · simp at h
          rcases h with h | h <;> subst h <;> rfl

/-- Claim C3: buffers enqueued into the output queue in order are released by
teardown in that same insertion (FIFO) order, each exactly as many times
as it was enqueued (no buffer is released twice). -/
theorem C3_fifo_output_drain (trisos : Bool) (cc : Int) (c : RTSP_Client)
    (bufs : List Nat) :
    ((client_ev_disconnect_handler trisos
        { connection_count := cc,
          client := { c with out_queue := enqueueAll bufs } }).2.filterMap relBuf)
      = bufs ∧
    ∀ b : Nat,
      ((client_ev_disconnect_handler trisos
          { connection_count := cc,
            client := { c with out_queue := enqueueAll bufs } }).2.filterMap relBuf).count b
        = bufs.count b := by
  have h : ((client_ev_disconnect_handler trisos
      { connection_count := cc,
        client := { c with out_queue := enqueueAll bufs } }).2.filterMap relBuf)
      = bufs := by
    cases trisos <;>
      simp [client_ev_disconnect_handler, List.filterMap_append, relBuf,
            filterMap_relBuf_map, filterMap_relBuf_comp, drainPopTail_eq_reverse,
            enqueueAll_eq_reverse]
  exact ⟨h, fun b => by rw [h]⟩

/-- Claim C4: an incoming connection accepted while the live-connection counter
has reached the ceiling is closed immediately: no Client record is
created and the counter does not change. -/
theorem C4_admission_ceiling (ceiling cc : Int) (h : cc ≥ ceiling) :
    rtsp_client_incoming_cb ceiling cc true =
      { connection_count := cc, created := none,
        acts := [IncAct.closeClientSock] } := by
  unfold rtsp_client_incoming_cb
  simp [h]

/-- Witness for C4: with ceiling 1 and one connection admitted, the next
accepted connection is closed, uncounted and recordless. -/
theorem C4_admission_ceiling_witness :
    (1 : Int) ≥ 1 ∧
    rtsp_client_incoming_cb 1 1 true =
      { connection_count := 1, created := none,
        acts := [IncAct.closeClientSock] } :=
  ⟨by decide, C4_admission_ceiling 1 1 (by decide)⟩

/-- Claim C5: in the default build, for a live-source session starting with the
bye flag unset, every hard-expiry disconnect request emitted over any
run of liveness ticks is preceded by a soft-expiry BYE, and a run
containing a tick that observes a stall of at least `STREAM_TIMEOUT`
emits both the BYE and the disconnect request. -/
theorem C5_soft_before_hard (hb : Int) (s : RTP_session)
    (ticks : List (Int × Int × Int))
    (hlive : s.media_source_live = true) (hfresh : s.isBye = false) :
    byeBefore false (runTicks false hb s ticks).2 = true ∧
    ((∃ p ∈ ticks, p.1 - p.2.1 ≥ STREAM_TIMEOUT) →
      TickAct.sendBye ∈ (runTicks false hb s ticks).2 ∧
      TickAct.sendDisconnect ∈ (runTicks false hb s ticks).2) := by
  have hbb := runTicks_byeBefore false hb ticks s (Or.inl ⟨rfl, hlive⟩)
  rw [hfresh] at hbb
  refine ⟨hbb, ?_⟩
  intro hstall
  have hdisc := runTicks_disc_of_stalled hb ticks s hstall
  rcases byeBefore_disc_mem _ false hbb hdisc with h | h
  · simp at h
  · exact ⟨h, hdisc⟩

/-- Witness for C5: a live session stalled for 12 units gets the BYE and
the disconnect on the same tick. -/
theorem C5_soft_before_hard_witness :
    TickAct.sendBye ∈ (runTicks false 0 ⟨true, 0, 0, false⟩ [(12, 0, 0)]).2 ∧
    TickAct.sendDisconnect ∈ (runTicks false 0 ⟨true, 0, 0, false⟩ [(12, 0, 0)]).2 :=
  (C5_soft_before_hard 0 ⟨true, 0, 0, false⟩ [(12, 0, 0)] rfl rfl).2
    ⟨(12, 0, 0), by decide, by decide⟩

/-- Counterexample to claim C6: in the TRISOS build with heartbeat supervision
enabled, a tick on a session whose bye flag is set and which has stalled
for `STREAM_TIMEOUT` emits only the disconnect request — no SDES
heartbeat — so the supervisor does not emit a heartbeat on every tick
for every session. -/
theorem C6_counterexample :
    (check_if_any_rtp_session_timedout true 1 12 ⟨true, 0, 0, true⟩).2
      = [TickAct.sendDisconnect] ∧
    TickAct.sendSdes ∉
      (check_if_any_rtp_session_timedout true 1 12 ⟨true, 0, 0, true⟩).2 := by
  decide

/-- Amended claim C6: in the TRISOS build, on every tick on which the session
is not hard-expiring (bye flag set and at least `STREAM_TIMEOUT` since
the last packet send), the supervisor emits an SDES heartbeat; and when
heartbeat supervision is enabled it emits a disconnect request on every
tick that observes at least 60 units since the last control-channel
acknowledgment. -/
theorem C6_heartbeat_supervision (hb now : Int) (s : RTP_session)
    (hhb : hb ≠ 0) :
    (¬ ((check_if_any_rtp_session_timedout true hb now s).1.isBye = true ∧
        now - s.last_packet_send_time ≥ STREAM_TIMEOUT) →
      TickAct.sendSdes ∈ (check_if_any_rtp_session_timedout true hb now s).2) ∧
    (now - s.last_rtcp_read_time ≥ 60 →
      TickAct.sendDisconnect ∈ (check_if_any_rtp_session_timedout true hb now s).2) := by
  unfold check_if_any_rtp_session_timedout
  split_ifs with hsoft
  · have hfields := rtcp_send_sr_bye_fields s
    have h := tick_hard_phase_trisos hb now (rtcp_send_sr_bye s).1
      (rtcp_send_sr_bye s).2 hhb
    rw [hfields.2.1, hfields.2.2] at h
    rw [tick_hard_phase_state]
    exact h
  · have h := tick_hard_phase_trisos hb now s [] hhb
    rw [tick_hard_phase_state]
    exact h

/-- Witness for C6 (amended): a non-live session with no control
acknowledgment for 70 units gets both the heartbeat and the watchdog
disconnect. -/
theorem C6_heartbeat_supervision_witness :
    TickAct.sendSdes ∈
      (check_if_any_rtp_session_timedout true 1 10 ⟨false, 0, -60, false⟩).2 ∧
    TickAct.sendDisconnect ∈
      (check_if_any_rtp_session_timedout true 1 10 ⟨false, 0, -60, false⟩).2 :=
  ⟨(C6_heartbeat_supervision 1 10 ⟨false, 0, -60, false⟩ (by decide)).1 (by decide),
   (C6_heartbeat_supervision 1 10 ⟨false, 0, -60, false⟩ (by decide)).2 (by decide)⟩

/-- Claim C7: over any run of liveness ticks, in either build and under any
heartbeat configuration, a session emits at most one BYE: once a bye has
been issued, no subsequent tick emits another for that session. -/
theorem C7_single_bye (trisos : Bool) (hb : Int) (s : RTP_session)
    (ticks : List (Int × Int × Int)) :
    (runTicks trisos hb s ticks).2.count TickAct.sendBye ≤ 1 := by
  refine le_trans (runTicks_count_bye trisos hb ticks s) ?_
  split_ifs <;> omega

/-- Claim C8: one firing of the reaper timer consumes every terminated child:
with K zombie pids each having exactly one tracking record, it removes
all K records, releases all K reserved port resources, decrements the
connection counter K times, and leaves no record for a reaped pid. -/
theorem C8_reaper_completeness (s : ReaperState)
    (hnd : s.zombies.Nodup)
    (hone : ∀ p ∈ s.zombies, pidCount s.client_list p = 1) :
    (timer_watcher_cb s).connection_count
      = s.connection_count - s.zombies.length ∧
    (timer_watcher_cb s).client_list.length
      = s.client_list.length - s.zombies.length ∧
    (timer_watcher_cb s).freed_resources.length
      = s.freed_resources.length + s.zombies.length ∧
    ∀ p ∈ s.zombies,
      get_client_list_item (timer_watcher_cb s).client_list p = none := by
  obtain ⟨h1, h2, h3, h4, _⟩ := reapLoop_spec s.zombies s.client_list
    s.freed_resources s.connection_count hnd hone
  exact ⟨h1, h2, h3, h4⟩

/-- Witness for C8: two children exited between ticks; one pass reaps
both records, frees both port pairs and decrements twice. -/
theorem C8_reaper_completeness_witness :
    (timer_watcher_cb ⟨[101, 102], [⟨101, 11⟩, ⟨102, 12⟩], [], 2⟩).connection_count = 0 ∧
    (timer_watcher_cb ⟨[101, 102], [⟨101, 11⟩, ⟨102, 12⟩], [], 2⟩).client_list.length = 0 ∧
    (timer_watcher_cb ⟨[101, 102], [⟨101, 11⟩, ⟨102, 12⟩], [], 2⟩).freed_resources.length = 2 := by
  have h := C8_reaper_completeness ⟨[101, 102], [⟨101, 11⟩, ⟨102, 12⟩], [], 2⟩
    (by decide) (by decide)
  refine ⟨?_, ?_, ?_⟩
  · rw [h.1]; decide
  · rw [h.2.1]; decide
  · rw [h.2.2.1]; decide

/-- Counterexample to claim C9: for an admitted connection (ceiling 10, count 0),
the Client record created by `rtsp_client_incoming_cb` has its liveness
timer initialized but not running, refuting the claim that the callback
starts the liveness timer. -/
theorem C9_counterexample :
    ¬ ((rtsp_client_incoming_cb 10 0 true).created.map
        (fun c => c.ev_timeout_active) = some true) := by
  decide

/-- Amended claim C9: for every admitted connection, the callback registers
and starts the disconnect signal and the read watcher, initializes the
write watcher unstarted, sets the liveness timer's repeat interval to
`STREAM_TIMEOUT` but leaves the timer unstarted (it must be armed later
by another component), and increments the connection counter. -/
theorem C9_client_wiring (ceiling cc : Int) (hlt : cc < ceiling) :
    (rtsp_client_incoming_cb ceiling cc true).created
      = some
        { ev_io_read_active := true, ev_io_write_active := false,
          ev_sig_disconnect_active := true, ev_sig_disconnect_pending := false,
          ev_timeout_active := false, ev_timeout_repeat := STREAM_TIMEOUT,
          sock_open := true, out_queue := [], input_allocated := true,
          freed := false } ∧
    (rtsp_client_incoming_cb ceiling cc true).connection_count = cc + 1 := by
  have h2 : ¬ (cc ≥ ceiling) := by omega
  unfold rtsp_client_incoming_cb
  simp [h2]

/-- Witness for C9 (amended): an admission below the ceiling. -/
theorem C9_client_wiring_witness :
    (3 : Int) < 10 ∧
    (rtsp_client_incoming_cb 10 3 true).connection_count = 4 :=
  ⟨by decide, (C9_client_wiring 10 3 (by decide)).2⟩

/-- Claim C10: in the TRISOS build with heartbeat supervision disabled
(`rtcp_heartbeat = 0`), a session that never issues a BYE over a run of
liveness ticks is never sent a disconnect request, no matter how much
time has elapsed since its last packet send or last control
acknowledgment: any emitted disconnect entails an emitted BYE. -/
theorem C10_no_expiry_without_bye (s : RTP_session)
    (ticks : List (Int × Int × Int)) (hfresh : s.isBye = false)
    (hdisc : TickAct.sendDisconnect ∈ (runTicks true 0 s ticks).2) :
    TickAct.sendBye ∈ (runTicks true 0 s ticks).2 := by
  have hbb := runTicks_byeBefore true 0 ticks s (Or.inr ⟨rfl, rfl⟩)
  rw [hfresh] at hbb
  rcases byeBefore_disc_mem _ false hbb hdisc with h | h
  · simp at h
  · exact h

/-- Witness for C10: a live stalled session in that configuration issues
its BYE before (here: on the same tick as) its hard expiry. -/
theorem C10_no_expiry_without_bye_witness :
    (⟨true, 0, 0, false⟩ : RTP_session).isBye = false ∧
    TickAct.sendDisconnect ∈ (runTicks true 0 ⟨true, 0, 0, false⟩ [(12, 0, 0)]).2 ∧
    TickAct.sendBye ∈ (runTicks true 0 ⟨true, 0, 0, false⟩ [(12, 0, 0)]).2 :=
  ⟨rfl, by decide,
   C10_no_expiry_without_bye ⟨true, 0, 0, false⟩ [(12, 0, 0)] rfl (by decide)⟩

end Feng
